import Mathlib

/-!
Verification of the streaming event-to-UI-state reducer of the
computer-use demo front-end (`frontend/src/hooks/useChat.ts`).

The embedding models:
* parsed JSON values (`Json`) as returned by `JSON.parse`;
* the shape-based wire event decoder (the if/else chain of `sendMessage`,
  lines 124-167) as `classify`;
* the chat state held in the React hook (`displayMessages`, `chatHistory`,
  `httpLogs`, `isStreaming`, `abortControllerRef`) as `ChatState`;
* the chunk/line buffering loop (lines 105-122) as `splitChunks` / `feedChunk`;
* `sendMessage`, `stop`, `clearMessages` as pure state transformers,
  parameterised by the environment: the JSON parser (`JSON.parse` is a
  host primitive) and the fetch outcome (HTTP status, body chunks, and how
  the stream ends).

`DisplayMessage.id` and `DisplayMessage.timestamp` are synthesised from the
wall clock and a random source in the code; they are outside the pure model,
which keeps the role and content of each transcript entry.
-/

namespace CUDemo

/-- Parsed JSON value, the result of a successful `JSON.parse`.  Object
field lists are the parser's output, so keys are distinct (later duplicate
keys overwrite earlier ones during parsing) and `List.lookup` is field
access.  Numbers are modelled as integers; no claim involves fractional
values. -/
inductive Json where
  | null
  | bool (b : Bool)
  | num (n : Int)
  | str (s : String)
  | arr (elems : List Json)
  | obj (fields : List (String × Json))


/-- Field access `j.k` on a parsed value: `some v` when `j` is an object
with field `k`, otherwise `none` (JavaScript `undefined`). -/
def Json.getField : Json → String → Option Json
  | .obj fields, k => fields.lookup k
  | _, _ => none

/-- The JavaScript `k in j` test, for the keys the decoder probes (none of
which exist on `Object.prototype` or `Array.prototype`, so prototype-chain
hits cannot occur). -/
def Json.hasField (j : Json) (k : String) : Bool :=
  (j.getField k).isSome

/-- Whether applying the JavaScript `in` operator to this value is legal:
`k in x` throws a `TypeError` unless `x` is an object or an array. -/
def Json.inOk : Json → Bool
  | .obj _ => true
  | .arr _ => true
  | _ => false

/-- The decoded wire event: one constructor per branch of the dispatch
chain, plus `dropped` (no shape matched) and `faulted` (a `TypeError` was
thrown while probing shapes; caught by the surrounding `catch`). -/
inductive Decoded where
  | messageEv (text : Json)
  | thinkingEv (thinking : Json)
  | toolUseEv (id : Option Json) (name : Json) (input : Json)
  | toolResultEv (toolId : Json) (output : Option Json) (error : Option Json)
      (base64Image : Option Json)
  | httpLogEv (request : Json) (response : Option Json) (error : Option Json)
  | errorEv (error : Json)
  | doneEv (messages : Json)
  | dropped
  | faulted


/-- Rules 6 and 7 of the dispatch chain (`'error' in parsed && 'type' in
parsed`, then `'messages' in parsed`), reached when rules 1-5 fail. -/
def classifyTail (p : Json) : Decoded :=
  if p.hasField "error" && p.hasField "type" then
    .errorEv ((p.getField "error").getD .null)
  else if p.hasField "messages" then
    .doneEv ((p.getField "messages").getD .null)
  else
    .dropped

/-- Rule 1 of the dispatch chain as written on line 128: `'text' in parsed
&& parsed.type === 'text'` (strict string equality on the `type` field). -/
def isTextShape (p : Json) : Bool :=
  p.hasField "text" &&
    (match p.getField "type" with
     | some (.str t) => t == "text"
     | _ => false)

/-- The wire event decoder: the if/else chain of `useChat.ts` lines
128-167, applied to one parsed data-line object.  A non-object operand of
the `in` operator throws, which the code catches (`faulted`). -/
def classify (p : Json) : Decoded :=
  if !p.inOk then .faulted
  else if isTextShape p then
    .messageEv ((p.getField "text").getD .null)
  else if p.hasField "thinking" then
    .thinkingEv ((p.getField "thinking").getD .null)
  else if p.hasField "name" && p.hasField "input" then
    .toolUseEv (p.getField "id") ((p.getField "name").getD .null)
      ((p.getField "input").getD .null)
  else if p.hasField "tool_id" then
    .toolResultEv ((p.getField "tool_id").getD .null) (p.getField "output")
      (p.getField "error") (p.getField "base64_image")
  else if p.hasField "request" then
    match p.getField "request" with
    | some r =>
      if !r.inOk then .faulted
      else if r.hasField "method" then
        .httpLogEv r (p.getField "response") (p.getField "error")
      else classifyTail p
    | none => classifyTail p
  else classifyTail p

/-- Transcript entry role (`DisplayMessage.role`). -/
inductive Role where
  | user
  | assistant
  | tool


/-- Tagged transcript content (`DisplayContent` in `types.ts`).  Values
come straight out of the parsed wire object, so they are `Json`; fields the
decoder does not require to be present are `Option Json`. -/
inductive DisplayContent where
  | text (text : Json)
  | thinking (thinking : Json)
  | tool_use (id : Option Json) (name : Json) (input : Json)
  | tool_result (toolId : Json) (output : Option Json) (error : Option Json)
      (base64Image : Option Json)
  | error (error : Json)


/-- One transcript entry; the synthetic `id` and wall-clock `timestamp` of
the code are environment-supplied and outside the pure model. -/
structure DisplayMessage where
  role : Role
  content : DisplayContent


/-- One logged HTTP exchange (`HttpLogEntry` in `types.ts`), minus the
synthetic `id`/`timestamp`. -/
structure HttpLogEntry where
  request : Json
  response : Option Json
  error : Option Json


/-- The state held by the `useChat` hook.  `chatHistory` is the JSON array
of `ChatMessage` values (the done event stores whatever array the backend
sent, uninspected, so the history is modelled as a `Json` value);
`abortController` models whether `abortControllerRef.current` is non-null. -/
structure ChatState where
  displayMessages : List DisplayMessage
  chatHistory : Json
  httpLogs : List HttpLogEntry
  isStreaming : Bool
  abortController : Option Unit


/-- `addDisplayMessage`: appends one entry to the transcript. -/
def addDisplayMessage (st : ChatState) (role : Role) (content : DisplayContent) :
    ChatState :=
  { st with displayMessages := st.displayMessages ++ [⟨role, content⟩] }

/-- `addHttpLog`: appends one entry to the HTTP log. -/
def addHttpLog (st : ChatState) (entry : HttpLogEntry) : ChatState :=
  { st with httpLogs := st.httpLogs ++ [entry] }

/-- Dispatch of one decoded event to the state, mirroring the body of each
branch of the chain (lines 128-167): which `addDisplayMessage` /
`addHttpLog` / `setChatHistory` call runs, with which role and fields. -/
def processEvent (st : ChatState) (p : Json) : ChatState :=
  match classify p with
  | .messageEv t => addDisplayMessage st .assistant (.text t)
  | .thinkingEv v => addDisplayMessage st .assistant (.thinking v)
  | .toolUseEv i n inp => addDisplayMessage st .assistant (.tool_use i n inp)
  | .toolResultEv tid out err img =>
      addDisplayMessage st .tool (.tool_result tid out err img)
  | .httpLogEv req resp err => addHttpLog st ⟨req, resp, err⟩
  | .errorEv e => addDisplayMessage st .assistant (.error e)
  | .doneEv ms => { st with chatHistory := ms }
  | .dropped => st
  | .faulted => st

/-- Whether `pre` is an initial segment of `s` (JavaScript
`s.startsWith(pre)`), on character lists. -/
def startsWithChars : List Char → List Char → Bool
  | [], _ => true
  | _ :: _, [] => false
  | p :: ps, c :: cs => p == c && startsWithChars ps cs

/-- JavaScript `String.prototype.trim` on a character list (whitespace
stripped from both ends; the payloads at hand only ever carry ASCII
whitespace). -/
def trimChars (s : List Char) : List Char :=
  ((s.dropWhile Char.isWhitespace).reverse.dropWhile Char.isWhitespace).reverse

/-- Processing of one complete line (lines 116-171): `event:` lines are
skipped; a `data:` line has its payload after the 5-character marker
trimmed, empty payloads are skipped, the payload is parsed (`parse` stands
for `JSON.parse`, returning `none` on malformed input, which the `catch`
turns into a skip), and the parsed object is dispatched. -/
def processLine (parse : List Char → Option Json) (st : ChatState)
    (line : List Char) : ChatState :=
  if startsWithChars "event:".toList line then st
  else if startsWithChars "data:".toList line then
    let data := trimChars (line.drop 5)
    if data.isEmpty then st
    else
      match parse data with
      | some parsed => processEvent st parsed
      | none => st
  else st

/-- Splitting of a character stream at newlines, as the loop body does with
`buffer.split('\n')` followed by `lines.pop()`: the first component is the
list of complete (newline-terminated) lines, the second the trailing
partial line that goes back into the buffer. -/
def splitChunks : List Char → List (List Char) × List Char
  | [] => ([], [])
  | c :: cs =>
    let r := splitChunks cs
    if c = '\n' then ([] :: r.1, r.2)
    else
      match r.1 with
      | [] => ([], c :: r.2)
      | l :: ls => ((c :: l) :: ls, r.2)

/-- The read-loop state: the partial-line `buffer` plus the chat state. -/
structure StreamSt where
  buffer : List Char
  chat : ChatState


/-- One iteration of the read loop (lines 108-173) for one decoded chunk:
the chunk is appended to the buffer, complete lines are processed in order,
and the trailing partial line becomes the new buffer. -/
def feedChunk (parse : List Char → Option Json) (s : StreamSt)
    (chunk : List Char) : StreamSt :=
  let r := splitChunks (s.buffer ++ chunk)
  ⟨r.2, r.1.foldl (processLine parse) s.chat⟩

/-- The whole read loop over a list of chunks, starting from an empty
buffer; when the reader reports `done` the leftover buffer is discarded. -/
def runStreamLoop (parse : List Char → Option Json) (chat : ChatState)
    (chunks : List (List Char)) : ChatState :=
  (chunks.foldl (feedChunk parse) ⟨[], chat⟩).chat

/-- The mutable configuration read by `sendMessage` (`AppConfig` in
`types.ts`); numeric fields are JavaScript numbers carrying integers. -/
structure AppConfig where
  provider : String
  apiKey : String
  model : String
  systemPromptSuffix : String
  onlyNMostRecentImages : Int
  maxTokens : Int
  toolVersion : String
  thinkingEnabled : Bool
  thinkingBudget : Int
  hideImages : Bool
  tokenEfficientToolsBeta : Bool

/-- The object literal passed to `JSON.stringify` in the fetch call (lines
81-92), field by field; `none` models a JavaScript `undefined` value
(`config.apiKey || undefined`, and the `thinking_budget` ternary). -/
def rawBody (cfg : AppConfig) (history : Json) : List (String × Option Json) :=
  [("messages", some history),
   ("model", some (.str cfg.model)),
   ("provider", some (.str cfg.provider)),
   ("api_key", if cfg.apiKey = "" then none else some (.str cfg.apiKey)),
   ("system_prompt_suffix", some (.str cfg.systemPromptSuffix)),
   ("only_n_most_recent_images", some (.num cfg.onlyNMostRecentImages)),
   ("max_tokens", some (.num cfg.maxTokens)),
   ("tool_version", some (.str cfg.toolVersion)),
   ("thinking_budget",
     if cfg.thinkingEnabled then some (.num cfg.thinkingBudget) else none),
   ("token_efficient_tools_beta", some (.bool cfg.tokenEfficientToolsBeta))]

/-- The JSON body of the `POST /api/chat/stream` request: `JSON.stringify`
drops the fields whose value is `undefined`. -/
def requestBody (cfg : AppConfig) (history : Json) : Json :=
  .obj ((rawBody cfg history).filterMap (fun kv => kv.2.map (fun v => (kv.1, v))))

/-- The `{role: 'user', content: text}` value pushed onto the history. -/
def userMessageJson (text : String) : Json :=
  .obj [("role", .str "user"), ("content", .str text)]

/-- Elements of a JSON array value.  The spread `[...chatHistory,
userMessage]` requires the history to be an array, which it is in every
reachable state; theorems that inspect the history hypothesise the shape. -/
def Json.asArr : Json → List Json
  | .arr xs => xs
  | _ => []

/-- The history with the new user turn appended (line 68). -/
def appendUser (history : Json) (text : String) : Json :=
  .arr (history.asArr ++ [userMessageJson text])

/-- How the read loop over the response body ends: the reader reports
`done`; or a read rejects with an `AbortError` (the user cancelled); or a
read rejects with some other error carrying a message. -/
inductive StreamEnd where
  | done
  | abortError
  | netError (msg : String)

/-- The environment's response to the fetch: a non-2xx status
(`response.ok` false), a response without a body, a failure of `fetch`
itself (a non-abort rejection carrying a message), or a streamed body
delivering a list of decoded chunks and then ending as `ending` says. -/
inductive FetchOutcome where
  | httpError (status : Nat)
  | noBody
  | networkError (msg : String)
  | stream (chunks : List (List Char)) (ending : StreamEnd)

/-- One full run of `sendMessage(text)` (lines 59-190) under a given fetch
outcome: the user turn is shown and appended to the history, the abort
handle is installed and the busy flag raised, the outcome is handled (the
`catch` turns an `AbortError` into the `(stopped by user)` text entry and
any other failure into an error entry carrying the thrown message), and the
`finally` block lowers the busy flag and clears the handle. -/
def sendMessage (parse : List Char → Option Json) (cfg : AppConfig)
    (st : ChatState) (text : String) (outcome : FetchOutcome) : ChatState :=
  let st1 := addDisplayMessage st .user (.text (.str text))
  let st2 := { st1 with chatHistory := appendUser st1.chatHistory text }
  let st3 := { st2 with abortController := some (), isStreaming := true }
  let _postedBody := requestBody cfg st2.chatHistory
  let st4 :=
    match outcome with
    | .httpError status =>
        addDisplayMessage st3 .assistant
          (.error (.str ("HTTP error! status: " ++ toString status)))
    | .noBody =>
        addDisplayMessage st3 .assistant (.error (.str "No response body"))
    | .networkError msg =>
        addDisplayMessage st3 .assistant (.error (.str msg))
    | .stream chunks ending =>
        let st' := runStreamLoop parse st3 chunks
        match ending with
        | .done => st'
        | .abortError =>
            addDisplayMessage st' .assistant (.text (.str "(stopped by user)"))
        | .netError msg =>
            addDisplayMessage st' .assistant (.error (.str msg))
  { st4 with isStreaming := false, abortController := none }

/-- The `stop` callback (lines 192-196): when an abort handle is present it
is signalled (second component `true`); the hook state itself is untouched
either way.  The signal's effect, if a read is in flight, arrives through
the `FetchOutcome` as an `AbortError`. -/
def stop (st : ChatState) : ChatState × Bool :=
  match st.abortController with
  | some _ => (st, true)
  | none => (st, false)

/-- The `clearMessages` callback (lines 198-202). -/
def clearMessages (st : ChatState) : ChatState :=
  { st with displayMessages := [], chatHistory := .arr [], httpLogs := [] }

/-- Bool-valued discriminators for decoded events, used to state the
decoder claims without quantifying over the constructor arguments. -/
def Decoded.isThinkingEv : Decoded → Bool
  | .thinkingEv _ => true
  | _ => false

/-- Whether a decoded event is a tool-result event. -/
def Decoded.isToolResultEv : Decoded → Bool
  | .toolResultEv _ _ _ _ => true
  | _ => false

/-- Whether a decoded event is a text (message) event. -/
def Decoded.isMessageEv : Decoded → Bool
  | .messageEv _ => true
  | _ => false

/-- Combination law for `splitChunks` over a concatenation: the trailing
partial line of the first part is glued onto the first line of the second
part. -/
def mergeRes (a b : List (List Char) × List Char) :
    List (List Char) × List Char :=
  match b.1 with
  | [] => (a.1, a.2 ++ b.2)
  | l :: ls => (a.1 ++ (a.2 ++ l) :: ls, b.2)

/-- A parser instance used for concrete evaluations: rejects every
payload. -/
def parseNone : List Char → Option Json := fun _ => none

/-- The hook's initial state (all lists empty, not streaming, no abort
handle). -/
def initState : ChatState := ⟨[], .arr [], [], false, none⟩

/-- A concrete configuration (the defaults of `App.tsx`) used in concrete
evaluations. -/
def cfg0 : AppConfig :=
  ⟨"anthropic", "", "claude-sonnet-4-5-20250929", "", 3, 16384,
    "computer_use_20250124", false, 8192, false, false⟩

/-- A payload matching both the text rule (rule 1) and the `thinking` and
`tool_id` shapes (rules 2 and 4). -/
def pAmbiguous : Json :=
  .obj [("text", .str "a"), ("type", .str "text"), ("thinking", .str "b"),
        ("tool_id", .str "c")]

/-- A state with prior piecemeal content, used to evaluate reconciliation
on a non-trivial history. -/
def stPrior : ChatState :=
  ⟨[⟨.user, .text (.str "old")⟩], .arr [userMessageJson "old"],
    [], false, none⟩

end CUDemo

namespace CUDemo

theorem splitChunks_append (xs ys : List Char) :
    splitChunks (xs ++ ys) = mergeRes (splitChunks xs) (splitChunks ys) := by
  induction xs with
  | nil =>
    rcases hy : splitChunks ys with ⟨lines, trail⟩
    cases lines <;> simp [mergeRes, hy, splitChunks]
  | cons c cs ih =>
    by_cases hc : c = '\n'
    · subst hc
      rcases hB : splitChunks ys with ⟨bl, bt⟩
      rcases hA : splitChunks cs with ⟨al, tr⟩
      rw [hA, hB] at ih
      cases bl <;>
        simp [splitChunks, ih, hA, hB, mergeRes]
    · rcases hB : splitChunks ys with ⟨bl, bt⟩
      rcases hA : splitChunks cs with ⟨al, tr⟩
      rw [hA, hB] at ih
      cases al <;> cases bl <;>
        simp [splitChunks, hc, ih, hA, hB, mergeRes, List.append_assoc]

theorem splitChunks_trail_no_newline (xs : List Char) :
    '\n' ∉ (splitChunks xs).2 := by
  induction xs with
  | nil => simp [splitChunks]
  | cons c cs ih =>
    by_cases hc : c = '\n'
    · subst hc; simpa [splitChunks] using ih
    · rcases hA : splitChunks cs with ⟨al, tr⟩
      rw [hA] at ih
      cases al <;> simp_all [splitChunks, eq_comm]

theorem splitChunks_of_no_newline (xs : List Char) (h : '\n' ∉ xs) :
    splitChunks xs = ([], xs) := by
  induction xs with
  | nil => rfl
  | cons c cs ih =>
    have hc : c ≠ '\n' := fun h' => h (h' ▸ List.mem_cons_self c cs)
    have hcs : '\n' ∉ cs := fun hm => h (List.mem_cons_of_mem _ hm)
    simp [splitChunks, hc, ih hcs]

theorem feedChunk_append (parse : List Char → Option Json) (s : StreamSt)
    (a b : List Char) :
    feedChunk parse (feedChunk parse s a) b = feedChunk parse s (a ++ b) := by
  rcases s with ⟨buf, chat⟩
  simp only [feedChunk]
  rw [show buf ++ (a ++ b) = (buf ++ a) ++ b from (List.append_assoc buf a b).symm,
    splitChunks_append (buf ++ a) b,
    splitChunks_append (splitChunks (buf ++ a)).2 b,
    splitChunks_of_no_newline _ (splitChunks_trail_no_newline (buf ++ a))]
  rcases hB : splitChunks b with ⟨bl, bt⟩
  cases bl <;> simp [mergeRes, List.foldl_append]

theorem foldl_feedChunk_join (parse : List Char → Option Json) (s : StreamSt)
    (a : List Char) (cs : List (List Char)) :
    List.foldl (feedChunk parse) (feedChunk parse s a) cs =
      feedChunk parse s (a ++ cs.flatten) := by
  induction cs generalizing a with
  | nil => simp
  | cons c cs ih =>
    rw [List.foldl_cons, feedChunk_append, ih, List.flatten_cons,
      List.append_assoc]

theorem sendMessage_abortController_eq_none (parse : List Char → Option Json)
    (cfg : AppConfig) (st : ChatState) (text : String) (outcome : FetchOutcome) :
    (sendMessage parse cfg st text outcome).abortController = none := rfl

theorem processEvent_appends_displayMessages (st : ChatState) (p : Json) :
    ∃ t, (processEvent st p).displayMessages = st.displayMessages ++ t := by
  unfold processEvent
  cases classify p <;>
    first
      | exact ⟨_, rfl⟩
      | exact ⟨[], (List.append_nil _).symm⟩

theorem processLine_appends_displayMessages (parse : List Char → Option Json)
    (st : ChatState) (line : List Char) :
    ∃ t, (processLine parse st line).displayMessages = st.displayMessages ++ t := by
  unfold processLine
  split
  · exact ⟨[], (List.append_nil _).symm⟩
  split
  · dsimp only
    split
    · exact ⟨[], (List.append_nil _).symm⟩
    · split
      · exact processEvent_appends_displayMessages _ _
      · exact ⟨[], (List.append_nil _).symm⟩
  · exact ⟨[], (List.append_nil _).symm⟩

theorem foldl_processLine_appends (parse : List Char → Option Json)
    (lines : List (List Char)) (st : ChatState) :
    ∃ t, (lines.foldl (processLine parse) st).displayMessages =
      st.displayMessages ++ t := by
  induction lines generalizing st with
  | nil => exact ⟨[], (List.append_nil _).symm⟩
  | cons l ls ih =>
    obtain ⟨t1, h1⟩ := processLine_appends_displayMessages parse st l
    obtain ⟨t2, h2⟩ := ih (processLine parse st l)
    exact ⟨t1 ++ t2, by rw [List.foldl_cons, h2, h1, List.append_assoc]⟩

theorem feedChunk_appends_displayMessages (parse : List Char → Option Json)
    (s : StreamSt) (chunk : List Char) :
    ∃ t, (feedChunk parse s chunk).chat.displayMessages =
      s.chat.displayMessages ++ t :=
  foldl_processLine_appends parse _ s.chat

theorem foldl_feedChunk_appends (parse : List Char → Option Json)
    (chunks : List (List Char)) (s : StreamSt) :
    ∃ t, (chunks.foldl (feedChunk parse) s).chat.displayMessages =
      s.chat.displayMessages ++ t := by
  induction chunks generalizing s with
  | nil => exact ⟨[], (List.append_nil _).symm⟩
  | cons c cs ih =>
    obtain ⟨t1, h1⟩ := feedChunk_appends_displayMessages parse s c
    obtain ⟨t2, h2⟩ := ih (feedChunk parse s c)
    exact ⟨t1 ++ t2, by rw [List.foldl_cons, h2, h1, List.append_assoc]⟩

theorem runStreamLoop_appends_displayMessages (parse : List Char → Option Json)
    (chat : ChatState) (chunks : List (List Char)) :
    ∃ t, (runStreamLoop parse chat chunks).displayMessages =
      chat.displayMessages ++ t :=
  foldl_feedChunk_appends parse chunks ⟨[], chat⟩

theorem sendMessage_appends_displayMessages (parse : List Char → Option Json)
    (cfg : AppConfig) (st : ChatState) (text : String) (outcome : FetchOutcome) :
    ∃ t, (sendMessage parse cfg st text outcome).displayMessages =
      st.displayMessages ++ t := by
  cases outcome with
  | httpError status => exact ⟨_, List.append_assoc _ _ _⟩
  | noBody => exact ⟨_, List.append_assoc _ _ _⟩
  | networkError msg => exact ⟨_, List.append_assoc _ _ _⟩
  | stream chunks ending =>
    obtain ⟨t2, h2⟩ := runStreamLoop_appends_displayMessages parse
      ⟨st.displayMessages ++ [⟨Role.user, DisplayContent.text (.str text)⟩],
        appendUser st.chatHistory text, st.httpLogs, true, some ()⟩ chunks
    cases ending with
    | done => exact ⟨_, h2.trans (List.append_assoc _ _ _)⟩
    | abortError =>
      have h3 : (sendMessage parse cfg st text (.stream chunks .abortError)).displayMessages =
          ((st.displayMessages ++ [⟨Role.user, DisplayContent.text (.str text)⟩]) ++ t2) ++
            [⟨Role.assistant, DisplayContent.text (.str "(stopped by user)")⟩] :=
        congrArg (· ++ _) h2
      exact ⟨[⟨Role.user, DisplayContent.text (.str text)⟩] ++ t2 ++
        [⟨Role.assistant, DisplayContent.text (.str "(stopped by user)")⟩],
        h3.trans (by simp [List.append_assoc])⟩
    | netError msg =>
      have h3 : (sendMessage parse cfg st text (.stream chunks (.netError msg))).displayMessages =
          ((st.displayMessages ++ [⟨Role.user, DisplayContent.text (.str text)⟩]) ++ t2) ++
            [⟨Role.assistant, DisplayContent.error (.str msg)⟩] :=
        congrArg (· ++ _) h2
      exact ⟨[⟨Role.user, DisplayContent.text (.str text)⟩] ++ t2 ++
        [⟨Role.assistant, DisplayContent.error (.str msg)⟩],
        h3.trans (by simp [List.append_assoc])⟩

/-- C1 (counterexample): the payload `{"text":"a","type":"text",
"thinking":"b","tool_id":"c"}` carries both a `thinking` and a `tool_id`
field, yet the decoder classifies it as a text event (rule 1 fires first),
not as a thinking event — refuting the claim that every object with both
fields is classified as a thinking event. -/
theorem C1_counterexample_text_rule_beats_thinking :
    pAmbiguous.hasField "thinking" = true ∧
    pAmbiguous.hasField "tool_id" = true ∧
    (classify pAmbiguous).isThinkingEv = false ∧
    classify pAmbiguous = .messageEv (.str "a") :=
  ⟨rfl, rfl, rfl, rfl⟩

/-- C1 (amended): for every object carrying both a `thinking` and a
`tool_id` field, the decoder never yields a tool-result event; it yields a
thinking event unless the object also matches the earlier text rule
(rule 1: `text` field plus `type === 'text'`), in which case it yields a
text event. -/
theorem C1_thinking_beats_tool_id (p : Json)
    (hThink : p.hasField "thinking" = true)
    (hTool : p.hasField "tool_id" = true) :
    (classify p).isToolResultEv = false ∧
    (isTextShape p = false → (classify p).isThinkingEv = true) ∧
    (isTextShape p = true → (classify p).isMessageEv = true) := by
  have hobj : p.inOk = true := by
    cases p <;> simp_all [Json.hasField, Json.getField, Json.inOk]
  cases hTS : isTextShape p with
  | true =>
    have hc : classify p = .messageEv ((p.getField "text").getD .null) := by
      simp [classify, hobj, hTS]
    simp [hc, Decoded.isToolResultEv, Decoded.isMessageEv]
  | false =>
    have hc : classify p = .thinkingEv ((p.getField "thinking").getD .null) := by
      simp [classify, hobj, hTS, hThink]
    simp [hc, Decoded.isToolResultEv, Decoded.isThinkingEv]

/-- Witness for C1: on `{"thinking":"t","tool_id":"c"}` the decoder yields
a thinking event and not a tool-result event. -/
theorem C1_thinking_beats_tool_id_witness :
    (classify (Json.obj [("thinking", Json.str "t"), ("tool_id", Json.str "c")])).isThinkingEv
      = true ∧
    (classify (Json.obj [("thinking", Json.str "t"), ("tool_id", Json.str "c")])).isToolResultEv
      = false := by
  have h := C1_thinking_beats_tool_id
    (Json.obj [("thinking", Json.str "t"), ("tool_id", Json.str "c")]) rfl rfl
  exact ⟨h.2.1 rfl, h.1⟩

/-- C2: for every byte stream and every way of cutting it into chunks
(including cuts in the middle of a line), folding the chunks through the
partial-line buffer yields exactly the same stream state — in particular
the same transcript — as delivering the whole stream as one single chunk. -/
theorem C2_chunk_boundaries_do_not_matter (parse : List Char → Option Json)
    (st : ChatState) (chunks : List (List Char)) :
    List.foldl (feedChunk parse) ⟨[], st⟩ chunks =
      feedChunk parse ⟨[], st⟩ chunks.flatten ∧
    runStreamLoop parse st chunks = runStreamLoop parse st [chunks.flatten] := by
  have main : List.foldl (feedChunk parse) ⟨[], st⟩ chunks =
      feedChunk parse ⟨[], st⟩ chunks.flatten := by
    cases chunks with
    | nil => rfl
    | cons a cs => simpa using foldl_feedChunk_join parse ⟨[], st⟩ a cs
  exact ⟨main, by simp [runStreamLoop, main]⟩

/-- C3: processing a done event (an object the decoder classifies as
carrying `messages`) replaces the tracked history with the carried list
verbatim, whatever the history held before, and touches neither the
transcript nor the HTTP log. -/
theorem C3_reconcile_replaces_history (st : ChatState) (p ms : Json)
    (h : classify p = .doneEv ms) :
    (processEvent st p).chatHistory = ms ∧
    (processEvent st p).displayMessages = st.displayMessages ∧
    (processEvent st p).httpLogs = st.httpLogs := by
  simp [processEvent, h]

/-- Witness for C3: a done event replaces a non-empty piecemeal history
with exactly the carried list. -/
theorem C3_reconcile_replaces_history_witness :
    (processEvent stPrior (Json.obj [("messages", Json.arr [Json.str "m"])])).chatHistory
      = Json.arr [Json.str "m"] :=
  (C3_reconcile_replaces_history stPrior
    (Json.obj [("messages", Json.arr [Json.str "m"])])
    (Json.arr [Json.str "m"]) rfl).1

/-- C4 (counterexample): after `sendMessage` hits an HTTP 500, the
conversation history is not unchanged — starting from the initial state it
has gained the user turn. -/
theorem C4_counterexample_history_gains_user_turn :
    (sendMessage parseNone cfg0 initState "hi" (.httpError 500)).chatHistory ≠
      initState.chatHistory := by
  intro h
  have h1 : Json.arr [userMessageJson "hi"] = Json.arr [] := h
  simp at h1

/-- C4 (amended): on a non-2xx status, `sendMessage` appends exactly two
transcript entries — the user's text entry and one error-variant entry
whose message cites the status code — and the history equals its prior
value with exactly the new user turn appended (not unchanged); the HTTP
log is untouched. -/
theorem C4_http_error_one_error_entry (parse : List Char → Option Json)
    (cfg : AppConfig) (st : ChatState) (text : String) (status : Nat)
    (xs : List Json) (h : st.chatHistory = .arr xs) :
    (sendMessage parse cfg st text (.httpError status)).displayMessages =
      st.displayMessages ++
        [⟨.user, .text (.str text)⟩,
         ⟨.assistant, .error (.str ("HTTP error! status: " ++ toString status))⟩] ∧
    (sendMessage parse cfg st text (.httpError status)).chatHistory =
      .arr (xs ++ [userMessageJson text]) ∧
    (sendMessage parse cfg st text (.httpError status)).httpLogs = st.httpLogs := by
  refine ⟨?_, ?_, rfl⟩
  · show (st.displayMessages ++ [⟨.user, .text (.str text)⟩]) ++
        [⟨.assistant, .error (.str ("HTTP error! status: " ++ toString status))⟩] = _
    simp
  · show appendUser st.chatHistory text = _
    simp [appendUser, h, Json.asArr]

/-- Witness for C4: concrete HTTP 500 run from the initial state. -/
theorem C4_http_error_one_error_entry_witness :
    initState.chatHistory = Json.arr [] ∧
    (sendMessage parseNone cfg0 initState "hi" (.httpError 500)).chatHistory =
      Json.arr [userMessageJson "hi"] :=
  ⟨rfl, (C4_http_error_one_error_entry parseNone cfg0 initState "hi" 500 [] rfl).2.1⟩

/-- C5: a stream aborted mid-stream adds, relative to the same stream
ending naturally, exactly one extra transcript entry, a text-variant entry
reading `(stopped by user)`; history and HTTP log are the same as on the
natural ending, so no error-variant entry is added for the cancellation. -/
theorem C5_abort_adds_one_stopped_entry (parse : List Char → Option Json)
    (cfg : AppConfig) (st : ChatState) (text : String)
    (chunks : List (List Char)) :
    (sendMessage parse cfg st text (.stream chunks .abortError)).displayMessages =
      (sendMessage parse cfg st text (.stream chunks .done)).displayMessages ++
        [⟨.assistant, .text (.str "(stopped by user)")⟩] ∧
    (sendMessage parse cfg st text (.stream chunks .abortError)).chatHistory =
      (sendMessage parse cfg st text (.stream chunks .done)).chatHistory ∧
    (sendMessage parse cfg st text (.stream chunks .abortError)).httpLogs =
      (sendMessage parse cfg st text (.stream chunks .done)).httpLogs :=
  ⟨rfl, rfl, rfl⟩

/-- C6: every `sendMessage` run — whatever the fetch outcome: non-2xx
status, missing body, network error, natural stream end, abort, or
mid-stream failure — ends with the busy flag lowered and the abort handle
cleared, i.e. the session is back to Idle. -/
theorem C6_always_exits_to_idle (parse : List Char → Option Json)
    (cfg : AppConfig) (st : ChatState) (text : String) (outcome : FetchOutcome) :
    (sendMessage parse cfg st text outcome).isStreaming = false ∧
    (sendMessage parse cfg st text outcome).abortController = none :=
  ⟨rfl, rfl⟩

/-- C7: the transcript is append-only — processing an event, processing a
line, feeding a chunk and a whole `sendMessage` run each leave the prior
entries as an unchanged prefix and only append; `stop` leaves the
transcript untouched; only `clearMessages` resets it, to the empty list. -/
theorem C7_transcript_append_only (parse : List Char → Option Json)
    (cfg : AppConfig) (st : ChatState) (s : StreamSt) (text : String)
    (outcome : FetchOutcome) (p : Json) (line chunk : List Char) :
    (∃ t, (processEvent st p).displayMessages = st.displayMessages ++ t) ∧
    (∃ t, (processLine parse st line).displayMessages = st.displayMessages ++ t) ∧
    (∃ t, (feedChunk parse s chunk).chat.displayMessages =
      s.chat.displayMessages ++ t) ∧
    (∃ t, (sendMessage parse cfg st text outcome).displayMessages =
      st.displayMessages ++ t) ∧
    (stop st).1.displayMessages = st.displayMessages ∧
    (clearMessages st).displayMessages = [] := by
  refine ⟨processEvent_appends_displayMessages st p,
    processLine_appends_displayMessages parse st line,
    feedChunk_appends_displayMessages parse s chunk,
    sendMessage_appends_displayMessages parse cfg st text outcome, ?_, rfl⟩
  cases h : st.abortController <;> simp [stop, h]

/-- C8: a data line whose payload fails to parse is skipped in place: the
state (transcript, HTTP log, history, flags) is exactly unchanged, and the
remaining lines of the stream are processed as if the bad line were not
there. -/
theorem C8_malformed_data_line_skipped (parse : List Char → Option Json)
    (st : ChatState) (line : List Char) (rest : List (List Char))
    (hdata : startsWithChars "data:".toList line = true)
    (hbad : parse (trimChars (line.drop 5)) = none) :
    processLine parse st line = st ∧
    List.foldl (processLine parse) st (line :: rest) =
      List.foldl (processLine parse) st rest := by
  have hskip : processLine parse st line = st := by
    have hev : startsWithChars "event:".toList line = false := by
      have hdata' : startsWithChars ['d', 'a', 't', 'a', ':'] line = true := hdata
      cases line with
      | nil => simp [startsWithChars] at hdata'
      | cons c cs =>
        have hde : ('e' == 'd') = false := by decide
        simp only [startsWithChars, Bool.and_eq_true, beq_iff_eq] at hdata'
        show startsWithChars ['e', 'v', 'e', 'n', 't', ':'] (c :: cs) = false
        rw [← hdata'.1]
        simp [startsWithChars, hde]
    unfold processLine
    simp only [hev, hdata, Bool.false_eq_true, if_false, if_true]
    split
    · rfl
    · rw [hbad]
  exact ⟨hskip, by rw [List.foldl_cons, hskip]⟩

/-- Witness for C8: the line `data: x` (payload rejected by the parser)
leaves the initial state exactly unchanged. -/
theorem C8_malformed_data_line_skipped_witness :
    startsWithChars "data:".toList "data: x".toList = true ∧
    parseNone (trimChars ("data: x".toList.drop 5)) = none ∧
    processLine parseNone initState "data: x".toList = initState :=
  ⟨rfl, rfl,
    (C8_malformed_data_line_skipped parseNone initState "data: x".toList [] rfl rfl).1⟩

/-- C9: calling `stop` while idle (no abort handle installed — the initial
state, and the state every `sendMessage` run leaves behind) changes
nothing and signals nothing; after any `sendMessage` run the handle is
cleared, so `stop` is then a no-op as well. -/
theorem C9_stop_when_idle_is_noop (parse : List Char → Option Json)
    (cfg : AppConfig) (st st2 : ChatState) (text : String)
    (outcome : FetchOutcome) (h : st.abortController = none) :
    stop st = (st, false) ∧
    stop (sendMessage parse cfg st2 text outcome) =
      (sendMessage parse cfg st2 text outcome, false) := by
  constructor
  · simp [stop, h]
  · simp [stop, sendMessage_abortController_eq_none]

/-- Witness for C9: `stop` on the initial state does nothing. -/
theorem C9_stop_when_idle_is_noop_witness :
    initState.abortController = none ∧ stop initState = (initState, false) :=
  ⟨rfl, (C9_stop_when_idle_is_noop parseNone cfg0 initState initState "hi"
    (.httpError 500) rfl).1⟩

/-- C10: in the body of every streaming request, the `api_key` field is
present exactly when the configured key is non-empty, and the
`thinking_budget` field is present exactly when the thinking toggle is
enabled. -/
theorem C10_optional_body_fields (cfg : AppConfig) (history : Json) :
    (requestBody cfg history).hasField "api_key" = !(cfg.apiKey == "") ∧
    (requestBody cfg history).hasField "thinking_budget" = cfg.thinkingEnabled := by
  constructor <;>
  · by_cases hk : cfg.apiKey = "" <;> cases ht : cfg.thinkingEnabled <;>
      simp [requestBody, rawBody, Json.hasField, Json.getField, hk, ht,
        List.lookup]

end CUDemo
